import Mathlib

/-!
Package xval: decryption and interpretation of Xbox 360 X-values.

A shallow embedding of `src/xval_decrypt.go` (package `xval`).

* Go strings and byte slices are lists of bytes (`List Byte`); `len` is `List.length`.
* `int32` values are integers in the range `-2^31 .. 2^31 - 1`; the bitwise operations wrap
  explicitly modulo `2^32` (two-complement).
* A Go `map` is ranged over in an unspecified order, so `TextResult` takes the order in which
  the `range` statement visits the table as an argument; the theorems hold for every order
  that is a permutation of the table.
* A run-time panic is the outcome `none` of a function returning `Option`.
-/

namespace Xval

/-- A byte (`byte` in Go). -/
abbrev Byte := Fin 256

/-- The bytes of an ASCII string literal (`[]byte("...")`). -/
def bytesOf (s : String) : List Byte :=
  s.toList.map (fun c => ⟨c.toNat % 256, Nat.mod_lt _ (by decide)⟩)

/-! ## 32-bit integers -/

/-- The unsigned 32-bit pattern of an integer. -/
def toUint32 (a : Int) : Nat := (a % 2 ^ 32).toNat

/-- The `int32` with a given 32-bit pattern. -/
def toInt32 (u : Nat) : Int :=
  if u % 2 ^ 32 < 2 ^ 31 then ((u % 2 ^ 32 : Nat) : Int) else ((u % 2 ^ 32 : Nat) : Int) - 2 ^ 32

/-- The operator `&` on `int32`. -/
def and32 (a b : Int) : Int := toInt32 (toUint32 a &&& toUint32 b)

/-! ## The flag constants (`1 << iota`, with `iota` counting from 0 inside the block) -/

def FlagNone : Int := 0
def FlagAuthExFailure : Int := 1 <<< 0
def FlagAuthExNoTable : Int := 1 <<< 1
def FlagAuthExReserved : Int := 1 <<< 2
def FlagInvalidDVDGeometry : Int := 1 <<< 3
def FlagInvalidDVDDMI : Int := 1 <<< 4
def FlagDVDKeyvaultPairMismatch : Int := 1 <<< 5
def FlagCRLDataInvalid : Int := 1 <<< 6
def FlagCRLCertificateRevoked : Int := 1 <<< 7
def FlagUnauthorizedInstall : Int := 1 <<< 8
def FlagKeyvaultPolicyViolation : Int := 1 <<< 9
def FlagConsoleBanned : Int := 1 <<< 10
def FlagODDViolation : Int := 1 <<< 11

/-- The literal of `getFlagDescriptions`, as the list of its key/value pairs in the order
in which the source writes them. -/
def getFlagDescriptions : List (Int × String) :=
  [ (FlagAuthExFailure,           "AuthEx challenge failure (AP 2.5 related)"),
    (FlagAuthExNoTable,           "AuthEx table missing (AP 2.5 related"),
    (FlagAuthExReserved,          "AuthEx reserved flag (AP 2.5 related)"),
    (FlagInvalidDVDGeometry,      "Invalid DVD geometry"),
    (FlagInvalidDVDDMI,           "Invalid DVD DMI"),
    (FlagDVDKeyvaultPairMismatch, "Invalid CRL data"),
    (FlagCRLDataInvalid,          "CRL certificate revoked"),
    (FlagCRLCertificateRevoked,   "CRL certificate revoked"),
    (FlagUnauthorizedInstall,     "Unauthorized install"),
    (FlagKeyvaultPolicyViolation, "Keyvault policy violation"),
    (FlagConsoleBanned,           "Console is banned"),
    (FlagODDViolation,            "ODD violation") ]

/-- Map lookup `getFlagDescriptions()[flag]` (the zero value `""` for a missing key). -/
def flagDescription (flag : Int) : String :=
  ((getFlagDescriptions.find? (fun p => p.1 == flag)).map Prod.snd).getD ""

/-! ## TextResult -/

/-- The function `binary.Read(buf, binary.BigEndian, &x)` for `x` an `int32`, on a buffer
holding the given bytes. -/
def readInt32BE (buf : List Byte) : Int :=
  toInt32 (buf.foldl (fun acc b => acc * 256 + b.val) 0)

/-- The value read from `dec[0:4]`. -/
def highBits (dec : List Byte) : Int := readInt32BE (dec.take 4)

/-- The value read from `dec[4:8]`. -/
def lowBits (dec : List Byte) : Int := readInt32BE ((dec.drop 4).take 4)

/-- The loop `for flag, message := range getFlagDescriptions()` of `TextResult`, visiting
the entries in the order `iter`, starting from the slice `result`. -/
def rangeFlags (lowBits : Int) (iter : List (Int × String)) (result : List String) :
    List String :=
  iter.foldl (fun result p => if and32 lowBits p.1 ≠ 0 then result ++ [p.2] else result) result

/-- The function `TextResult`. `iter` is the order in which the map is ranged over.
The slice expressions `dec[0:4]` and `dec[4:8]` panic on a slice shorter than 8 bytes
(a slice is taken with its capacity equal to its length). -/
def TextResult (iter : List (Int × String)) (dec : List Byte) : Option (List String) :=
  if dec.length < 8 then none
  else
    let highBits := highBits dec
    let lowBits := lowBits dec
    if lowBits = 0 ∧ highBits = 0 then some ["Secdata is clean"]
    else if lowBits = -1 ∧ highBits = -1 then some ["Secdata is invalid"]
    else if lowBits ≠ 0 ∧ highBits ≠ 0 then some ["Secdata decryption error"]
    else
      let result := rangeFlags lowBits iter []
      let result :=
        if and32 lowBits (-0x7FFF) ≠ 0 then result ++ ["Unknown violation(s)"] else result
      some result

/-! ## SHA-1 and HMAC (the packages `crypto/sha1` and `crypto/hmac` of the Go library)

Words are natural numbers below `2^32`. -/

/-- Rotation of a 32-bit word to the left. -/
def rotl32 (x n : Nat) : Nat := ((x <<< n) ||| (x >>> (32 - n))) % 2 ^ 32

/-- The big-endian bytes of a number, `n` of them. -/
def beBytes : Nat → Nat → List Byte
  | 0, _ => []
  | n + 1, x => ⟨(x >>> (8 * n)) % 256, Nat.mod_lt _ (by decide)⟩ :: beBytes n x

/-- The number whose big-endian bytes are given. -/
def beNat (bs : List Byte) : Nat := bs.foldl (fun acc b => acc * 256 + b.val) 0

/-- The padding of SHA-1: a byte `0x80`, zero bytes up to 56 modulo 64, and the length of
the message in bits as 8 bytes. -/
def sha1Pad (msg : List Byte) : List Byte :=
  msg ++ (0x80 : Byte) :: List.replicate ((119 - msg.length % 64) % 64) (0 : Byte)
    ++ beBytes 8 (8 * msg.length)

/-- The 16 words of a 64-byte block. -/
def blockWords : Nat → List Byte → List Nat
  | 0, _ => []
  | n + 1, bs => beNat (bs.take 4) :: blockWords n (bs.drop 4)

/-- The message schedule: `n` further words after the ones in `win`, which holds the words
computed so far, the latest first. -/
def sha1Schedule : Nat → List Nat → List Nat
  | 0, win => win
  | n + 1, win =>
    sha1Schedule n
      (rotl32 (win.getD 2 0 ^^^ win.getD 7 0 ^^^ win.getD 13 0 ^^^ win.getD 15 0) 1 :: win)

/-- The five chaining words of SHA-1. -/
structure Sha1State where
  a : Nat
  b : Nat
  c : Nat
  d : Nat
  e : Nat
deriving DecidableEq, Repr

/-- The initial chaining value. -/
def sha1Init : Sha1State := ⟨0x67452301, 0xEFCDAB89, 0x98BADCFE, 0x10325476, 0xC3D2E1F0⟩

/-- The round function and constant of round `i`. -/
def sha1F (i b c d : Nat) : Nat × Nat :=
  if i < 20 then ((b &&& c) ||| ((b ^^^ 0xFFFFFFFF) &&& d), 0x5A827999)
  else if i < 40 then (b ^^^ c ^^^ d, 0x6ED9EBA1)
  else if i < 60 then ((b &&& c) ||| (b &&& d) ||| (c &&& d), 0x8F1BBCDC)
  else (b ^^^ c ^^^ d, 0xCA62C1D6)

/-- One round of the compression function, with the word `w` of the schedule. -/
def sha1Round (s : Sha1State) (i w : Nat) : Sha1State :=
  let fk := sha1F i s.b s.c s.d
  ⟨(rotl32 s.a 5 + fk.1 + s.e + fk.2 + w) % 2 ^ 32, s.a, rotl32 s.b 30, s.c, s.d⟩

/-- The rounds `i, i+1, ...` over the given words. -/
def sha1Rounds : Nat → List Nat → Sha1State → Sha1State
  | _, [], s => s
  | i, w :: ws, s => sha1Rounds (i + 1) ws (sha1Round s i w)

/-- The compression function on one 64-byte block. -/
def sha1Block (h : Sha1State) (block : List Byte) : Sha1State :=
  let w := (sha1Schedule 64 (blockWords 16 block).reverse).reverse
  let s := sha1Rounds 0 w h
  ⟨(h.a + s.a) % 2 ^ 32, (h.b + s.b) % 2 ^ 32, (h.c + s.c) % 2 ^ 32, (h.d + s.d) % 2 ^ 32,
    (h.e + s.e) % 2 ^ 32⟩

/-- The compression function over `n` consecutive blocks. -/
def sha1Blocks : Nat → Sha1State → List Byte → Sha1State
  | 0, h, _ => h
  | n + 1, h, bs => sha1Blocks n (sha1Block h (bs.take 64)) (bs.drop 64)

/-- The SHA-1 digest of a message (20 bytes). -/
def sha1 (msg : List Byte) : List Byte :=
  let p := sha1Pad msg
  let h := sha1Blocks (p.length / 64) sha1Init p
  beBytes 4 h.a ++ beBytes 4 h.b ++ beBytes 4 h.c ++ beBytes 4 h.d ++ beBytes 4 h.e

/-- Bytewise exclusive or with a constant. -/
def xorByte (c : Nat) (b : Byte) : Byte := ⟨(b.val ^^^ c) % 256, Nat.mod_lt _ (by decide)⟩

/-- The function `hmac.New(sha1.New, key)`, `Write(msg)`, `Sum(nil)`: HMAC-SHA1 with a
block size of 64 bytes. -/
def hmacSha1 (key msg : List Byte) : List Byte :=
  let key := if key.length > 64 then sha1 key else key
  let key := key ++ List.replicate (64 - key.length) (0 : Byte)
  sha1 (key.map (xorByte 0x5c) ++ sha1 (key.map (xorByte 0x36) ++ msg))

/-! ## DES (the package `crypto/des` of the Go library)

A block and a key are 64-bit numbers; bit 1 of the standard is the most significant one. -/

/-- A bit selection: the bits of the `width`-bit number `x` at the positions of `table`
(counted from 1 at the most significant bit), in that order. -/
def permuteBits (table : List Nat) (width x : Nat) : Nat :=
  table.foldl (fun acc pos => 2 * acc + (x >>> (width - pos)) % 2) 0

def initialPermutation : List Nat :=
  [58, 50, 42, 34, 26, 18, 10, 2, 60, 52, 44, 36, 28, 20, 12, 4,
   62, 54, 46, 38, 30, 22, 14, 6, 64, 56, 48, 40, 32, 24, 16, 8,
   57, 49, 41, 33, 25, 17, 9, 1, 59, 51, 43, 35, 27, 19, 11, 3,
   61, 53, 45, 37, 29, 21, 13, 5, 63, 55, 47, 39, 31, 23, 15, 7]

def finalPermutation : List Nat :=
  [40, 8, 48, 16, 56, 24, 64, 32, 39, 7, 47, 15, 55, 23, 63, 31,
   38, 6, 46, 14, 54, 22, 62, 30, 37, 5, 45, 13, 53, 21, 61, 29,
   36, 4, 44, 12, 52, 20, 60, 28, 35, 3, 43, 11, 51, 19, 59, 27,
   34, 2, 42, 10, 50, 18, 58, 26, 33, 1, 41, 9, 49, 17, 57, 25]

def expansionFunction : List Nat :=
  [32, 1, 2, 3, 4, 5, 4, 5, 6, 7, 8, 9, 8, 9, 10, 11, 12, 13, 12, 13, 14, 15, 16, 17,
   16, 17, 18, 19, 20, 21, 20, 21, 22, 23, 24, 25, 24, 25, 26, 27, 28, 29, 28, 29, 30, 31, 32, 1]

def permutationFunction : List Nat :=
  [16, 7, 20, 21, 29, 12, 28, 17, 1, 15, 23, 26, 5, 18, 31, 10,
   2, 8, 24, 14, 32, 27, 3, 9, 19, 13, 30, 6, 22, 11, 4, 25]

def permutedChoice1 : List Nat :=
  [57, 49, 41, 33, 25, 17, 9, 1, 58, 50, 42, 34, 26, 18,
   10, 2, 59, 51, 43, 35, 27, 19, 11, 3, 60, 52, 44, 36,
   63, 55, 47, 39, 31, 23, 15, 7, 62, 54, 46, 38, 30, 22,
   14, 6, 61, 53, 45, 37, 29, 21, 13, 5, 28, 20, 12, 4]

def permutedChoice2 : List Nat :=
  [14, 17, 11, 24, 1, 5, 3, 28, 15, 6, 21, 10, 23, 19, 12, 4, 26, 8, 16, 7, 27, 20, 13, 2,
   41, 52, 31, 37, 47, 55, 30, 40, 51, 45, 33, 48, 44, 49, 39, 56, 34, 53, 46, 42, 50, 36, 29, 32]

def ksRotations : List Nat := [1, 1, 2, 2, 2, 2, 2, 2, 1, 2, 2, 2, 2, 2, 2, 1]

/-- The eight substitution boxes, each as four rows of sixteen values. -/
def sBoxes : List (List Nat) :=
  [ [14, 4, 13, 1, 2, 15, 11, 8, 3, 10, 6, 12, 5, 9, 0, 7,
     0, 15, 7, 4, 14, 2, 13, 1, 10, 6, 12, 11, 9, 5, 3, 8,
     4, 1, 14, 8, 13, 6, 2, 11, 15, 12, 9, 7, 3, 10, 5, 0,
     15, 12, 8, 2, 4, 9, 1, 7, 5, 11, 3, 14, 10, 0, 6, 13],
    [15, 1, 8, 14, 6, 11, 3, 4, 9, 7, 2, 13, 12, 0, 5, 10,
     3, 13, 4, 7, 15, 2, 8, 14, 12, 0, 1, 10, 6, 9, 11, 5,
     0, 14, 7, 11, 10, 4, 13, 1, 5, 8, 12, 6, 9, 3, 2, 15,
     13, 8, 10, 1, 3, 15, 4, 2, 11, 6, 7, 12, 0, 5, 14, 9],
    [10, 0, 9, 14, 6, 3, 15, 5, 1, 13, 12, 7, 11, 4, 2, 8,
     13, 7, 0, 9, 3, 4, 6, 10, 2, 8, 5, 14, 12, 11, 15, 1,
     13, 6, 4, 9, 8, 15, 3, 0, 11, 1, 2, 12, 5, 10, 14, 7,
     1, 10, 13, 0, 6, 9, 8, 7, 4, 15, 14, 3, 11, 5, 2, 12],
    [7, 13, 14, 3, 0, 6, 9, 10, 1, 2, 8, 5, 11, 12, 4, 15,
     13, 8, 11, 5, 6, 15, 0, 3, 4, 7, 2, 12, 1, 10, 14, 9,
     10, 6, 9, 0, 12, 11, 7, 13, 15, 1, 3, 14, 5, 2, 8, 4,
     3, 15, 0, 6, 10, 1, 13, 8, 9, 4, 5, 11, 12, 7, 2, 14],
    [2, 12, 4, 1, 7, 10, 11, 6, 8, 5, 3, 15, 13, 0, 14, 9,
     14, 11, 2, 12, 4, 7, 13, 1, 5, 0, 15, 10, 3, 9, 8, 6,
     4, 2, 1, 11, 10, 13, 7, 8, 15, 9, 12, 5, 6, 3, 0, 14,
     11, 8, 12, 7, 1, 14, 2, 13, 6, 15, 0, 9, 10, 4, 5, 3],
    [12, 1, 10, 15, 9, 2, 6, 8, 0, 13, 3, 4, 14, 7, 5, 11,
     10, 15, 4, 2, 7, 12, 9, 5, 6, 1, 13, 14, 0, 11, 3, 8,
     9, 14, 15, 5, 2, 8, 12, 3, 7, 0, 4, 10, 1, 13, 11, 6,
     4, 3, 2, 12, 9, 5, 15, 10, 11, 14, 1, 7, 6, 0, 8, 13],
    [4, 11, 2, 14, 15, 0, 8, 13, 3, 12, 9, 7, 5, 10, 6, 1,
     13, 0, 11, 7, 4, 9, 1, 10, 14, 3, 5, 12, 2, 15, 8, 6,
     1, 4, 11, 13, 12, 3, 7, 14, 10, 15, 6, 8, 0, 5, 9, 2,
     6, 11, 13, 8, 1, 4, 10, 7, 9, 5, 0, 15, 14, 2, 3, 12],
    [13, 2, 8, 4, 6, 15, 11, 1, 10, 9, 3, 14, 5, 0, 12, 7,
     1, 15, 13, 8, 10, 3, 7, 4, 12, 5, 6, 11, 0, 14, 9, 2,
     7, 11, 4, 1, 9, 12, 14, 2, 0, 6, 10, 13, 15, 3, 5, 8,
     2, 1, 14, 7, 4, 10, 8, 13, 15, 12, 9, 0, 3, 5, 6, 11] ]

/-- Rotation of a 28-bit half of the key to the left. -/
def rotl28 (x n : Nat) : Nat := ((x <<< n) ||| (x >>> (28 - n))) % 2 ^ 28

/-- The subkeys of the remaining rounds, from the two 28-bit halves `c` and `d`. -/
def ksSubkeys : List Nat → Nat → Nat → List Nat
  | [], _, _ => []
  | r :: rs, c, d =>
    permuteBits permutedChoice2 56 (rotl28 c r * 2 ^ 28 + rotl28 d r)
      :: ksSubkeys rs (rotl28 c r) (rotl28 d r)

/-- The sixteen 48-bit subkeys of a 64-bit key. -/
def generateSubkeys (key : Nat) : List Nat :=
  let cd := permuteBits permutedChoice1 64 key
  ksSubkeys ksRotations (cd / 2 ^ 28) (cd % 2 ^ 28)

/-- The six bits of `x` that enter box `i` (0 to 7), mapped through the box. -/
def sBoxLookup (x i : Nat) : Nat :=
  let six := (x >>> (42 - 6 * i)) % 64
  let row := 2 * (six / 32) + six % 2
  let col := (six / 2) % 16
  (sBoxes.getD i []).getD (16 * row + col) 0

/-- The cipher function of a round: expansion, key mixing, substitution, permutation. -/
def feistel (r k : Nat) : Nat :=
  let x := permuteBits expansionFunction 32 r ^^^ k
  permuteBits permutationFunction 32
    ((List.range 8).foldl (fun acc i => 16 * acc + sBoxLookup x i) 0)

/-- The rounds of the cipher over the given subkeys, on the halves `l` and `r`. -/
def desRounds : List Nat → Nat → Nat → Nat × Nat
  | [], l, r => (l, r)
  | k :: ks, l, r => desRounds ks r (l ^^^ feistel r k)

/-- The processing of one block with the subkeys in the given order. -/
def cryptBlock (subkeys : List Nat) (block : Nat) : Nat :=
  let b := permuteBits initialPermutation 64 block
  let lr := desRounds subkeys (b / 2 ^ 32) (b % 2 ^ 32)
  permuteBits finalPermutation 64 (lr.2 * 2 ^ 32 + lr.1)

/-- The DES decryption of one 8-byte block under an 8-byte key. -/
def desDecryptBlock (key block : List Byte) : List Byte :=
  beBytes 8 (cryptBlock (generateSubkeys (beNat key)).reverse (beNat block))

/-- The DES encryption of one 8-byte block under an 8-byte key. -/
def desEncryptBlock (key block : List Byte) : List Byte :=
  beBytes 8 (cryptBlock (generateSubkeys (beNat key)) (beNat block))

/-- The function `des.NewCipher`: the cipher is its key; a key that is not 8 bytes long is
refused with a `KeySizeError`. -/
def NewCipher (key : List Byte) : Except String (List Byte) :=
  if key.length ≠ 8 then .error ("crypto/des: invalid key size " ++ toString key.length)
  else .ok key

/-- The method `cipher.Decrypt(buf, buf)`: the first block of the slice is decrypted in
place; a slice shorter than one block panics. -/
def cipherDecrypt (cipher : List Byte) (buf : List Byte) : Option (List Byte) :=
  if buf.length < 8 then none
  else some (desDecryptBlock cipher (buf.take 8) ++ buf.drop 8)

/-! ## Hexadecimal decoding (the package `encoding/hex` of the Go library) -/

/-- The value of a hexadecimal digit, of either case. -/
def fromHexChar (c : Byte) : Option Nat :=
  if 0x30 ≤ c.val ∧ c.val ≤ 0x39 then some (c.val - 0x30)
  else if 0x61 ≤ c.val ∧ c.val ≤ 0x66 then some (c.val - 0x61 + 10)
  else if 0x41 ≤ c.val ∧ c.val ≤ 0x46 then some (c.val - 0x41 + 10)
  else none

/-- The function `hex.DecodeString`: the bytes decoded before the first error, and whether
there was an error (a character that is no hexadecimal digit, or an odd length). -/
def DecodeString : List Byte → List Byte × Bool
  | p :: q :: rest =>
    match fromHexChar p, fromHexChar q with
    | some a, some b =>
      let r := DecodeString rest
      (⟨(16 * a + b) % 256, Nat.mod_lt _ (by decide)⟩ :: r.1, r.2)
    | _, _ => ([], true)
  | [_] => ([], true)
  | [] => ([], false)

/-! ## Decrypt -/

/-- The three results `(key, plaintext, err)` of `Decrypt`; `none` is `nil`. -/
structure Returned where
  key : Option (List Byte)
  plaintext : Option (List Byte)
  err : Option String
deriving DecidableEq, Repr

/-- The dash character. -/
def dash : Byte := 0x2D

/-- The call `strings.Replace(xval, "-", "", -1)`. -/
def removeDashes (xval : List Byte) : List Byte := xval.filter (fun c => c ≠ dash)

/-- The slice expression `s[0:n]`, which panics when `n` exceeds the length. -/
def sliceTo (s : List Byte) (n : Nat) : Option (List Byte) :=
  if s.length < n then none else some (s.take n)

/-- The formatting verb `%v` on a byte slice. -/
def formatBytes (bs : List Byte) : String :=
  "[" ++ " ".intercalate (bs.map (fun b => toString b.val)) ++ "]"

/-- The function `Decrypt`. The outcome `none` is a run-time panic. -/
def Decrypt (serial xval : List Byte) : Option Returned :=
  let xval := if xval.contains dash then removeDashes xval else xval
  if xval.length ≠ 16 then
    some ⟨none, none, some "Invalid X value. Without dashes, length is not 16"⟩
  else if serial.length ≠ 0xC then
    some ⟨none, none, some ("Invalid console serial number. Length is not " ++ toString 0xC)⟩
  else
    match sliceTo (hmacSha1 serial (bytesOf "XBOX360SSB")) 8 with
    | none => none
    | some desKey =>
      if desKey.length ≠ 8 then
        some ⟨none, none, some ("Error decrypting (invalid DES key length of "
          ++ toString desKey.length ++ "). Key: " ++ formatBytes desKey)⟩
      else
        let xvalAsHex := (DecodeString xval).1
        match NewCipher desKey with
        | .error err => some ⟨none, none, some err⟩
        | .ok cipher =>
          match cipherDecrypt cipher xvalAsHex with
          | none => none
          | some plaintext => some ⟨some desKey, some plaintext, none⟩

/-- The operator `|` on `int32`. -/
def or32 (a b : Int) : Int := toInt32 (toUint32 a ||| toUint32 b)

/-- The twelve flag constants in the order of their declaration. -/
def flagConstants : List Int :=
  [FlagAuthExFailure, FlagAuthExNoTable, FlagAuthExReserved, FlagInvalidDVDGeometry,
   FlagInvalidDVDDMI, FlagDVDKeyvaultPairMismatch, FlagCRLDataInvalid,
   FlagCRLCertificateRevoked, FlagUnauthorizedInstall, FlagKeyvaultPolicyViolation,
   FlagConsoleBanned, FlagODDViolation]

/-! ## The words of the specification -/

/-- The flag bit table of the specification (section 6): the bit position within `lowBits`
and the description, row by row. -/
def specFlagBitTable : List (Nat × String) :=
  [ (1, "AuthEx challenge failure (AP 2.5 related)"),
    (2, "AuthEx table missing (AP 2.5 related)"),
    (3, "AuthEx reserved flag (AP 2.5 related)"),
    (4, "Invalid DVD geometry"),
    (5, "Invalid DVD DMI"),
    (6, "Invalid CRL data"),
    (7, "CRL certificate revoked"),
    (8, "CRL certificate revoked"),
    (9, "Unauthorized install"),
    (10, "Keyvault policy violation"),
    (11, "Console is banned"),
    (12, "ODD violation") ]

/-- A character with the hexadecimal letters `A` to `F` turned into `a` to `f`: two xvals
differ in the case of their hexadecimal letters only when they agree under this map. -/
def foldHexCase (c : Byte) : Byte :=
  if 0x41 ≤ c.val ∧ c.val ≤ 0x46 then ⟨(c.val + 0x20) % 256, Nat.mod_lt _ (by decide)⟩ else c

/-! ## Lemmas on TextResult -/

/-- The descriptions of the entries of `iter` whose flag is set in `lowBits`. -/
theorem rangeFlags_eq (lowBits : Int) (iter : List (Int × String)) (result : List String) :
    rangeFlags lowBits iter result
      = result ++ (iter.filter (fun p => decide (and32 lowBits p.1 ≠ 0))).map Prod.snd := by
  unfold rangeFlags
  induction iter generalizing result with
  | nil => simp
  | cons p ps ih =>
    rw [List.foldl_cons, ih]
    by_cases h : and32 lowBits p.1 = 0
    · simp [h]
    · simp [h]

/-- The result of `TextResult` when exactly one of the two words is non-zero. -/
theorem TextResult_flags (iter : List (Int × String)) (dec : List Byte)
    (hlen : 8 ≤ dec.length) (h0 : ¬ (lowBits dec = 0 ∧ highBits dec = 0))
    (h1 : ¬ (lowBits dec ≠ 0 ∧ highBits dec ≠ 0)) :
    TextResult iter dec
      = some ((iter.filter (fun p => decide (and32 (lowBits dec) p.1 ≠ 0))).map Prod.snd
          ++ if and32 (lowBits dec) (-0x7FFF) ≠ 0 then ["Unknown violation(s)"] else []) := by
  have h2 : ¬ (lowBits dec = -1 ∧ highBits dec = -1) := by
    rintro ⟨ha, hb⟩
    exact h1 ⟨by rw [ha]; decide, by rw [hb]; decide⟩
  unfold TextResult
  rw [if_neg (by omega)]
  simp only [if_neg h0, if_neg h2, if_neg h1, rangeFlags_eq, List.nil_append]
  split <;> simp

/-- C1, as amended: for every 8-byte plaintext whose `highBits` and `lowBits` are both
non-zero and not both equal to -1, `TextResult` returns exactly
`["Secdata decryption error"]`, in every order of iteration over the table. -/
theorem TextResult_decryption_error (iter : List (Int × String)) (dec : List Byte)
    (hlen : dec.length = 8) (hhi : highBits dec ≠ 0) (hlo : lowBits dec ≠ 0)
    (hinv : ¬ (lowBits dec = -1 ∧ highBits dec = -1)) :
    TextResult iter dec = some ["Secdata decryption error"] := by
  unfold TextResult
  rw [if_neg (by omega)]
  simp only [if_neg hinv]
  rw [if_neg (fun h => hlo h.1), if_pos ⟨hlo, hhi⟩]

theorem TextResult_decryption_error_witness :
    TextResult getFlagDescriptions [0, 0, 0, 1, 0, 0, 0, 1] = some ["Secdata decryption error"] :=
  TextResult_decryption_error getFlagDescriptions [0, 0, 0, 1, 0, 0, 0, 1] (by decide)
    (by decide) (by decide) (by decide)

/-- C1 fails on the plaintext of eight bytes `0xFF`: both words are non-zero (both are -1)
and `TextResult` returns `["Secdata is invalid"]`. -/
theorem TextResult_all_ones_not_decryption_error :
    highBits [255, 255, 255, 255, 255, 255, 255, 255] ≠ 0 ∧
    lowBits [255, 255, 255, 255, 255, 255, 255, 255] ≠ 0 ∧
    TextResult getFlagDescriptions [255, 255, 255, 255, 255, 255, 255, 255]
      = some ["Secdata is invalid"] := by decide

/-- A permutation of a list with a single selected entry selects that entry alone. -/
theorem filter_perm_singleton {iter table : List (Int × String)} (hperm : iter.Perm table)
    (q : Int → Bool) (p : Int × String) (h : table.filter (fun e => q e.1) = [p]) :
    iter.filter (fun e => q e.1) = [p] :=
  List.perm_singleton.mp (h ▸ hperm.filter _)

/-- No entry of a permutation of a list is selected when none of the list is. -/
theorem filter_perm_nil {iter table : List (Int × String)} (hperm : iter.Perm table)
    (q : Int → Bool) (h : table.filter (fun e => q e.1) = []) :
    iter.filter (fun e => q e.1) = [] :=
  List.perm_nil.mp (h ▸ hperm.filter _)

/-- The result of `TextResult` when `highBits` is zero and `lowBits` is one flag of the
table. -/
theorem TextResult_of_flag_alone (iter : List (Int × String))
    (hperm : iter.Perm getFlagDescriptions) (p : Int × String) (hp : p ∈ getFlagDescriptions)
    (dec : List Byte) (hlen : dec.length = 8) (hhi : highBits dec = 0)
    (hlo : lowBits dec = p.1) :
    TextResult iter dec
      = some (if p.1 = FlagAuthExFailure then [p.2, "Unknown violation(s)"] else [p.2]) := by
  have key : ∀ q : Int × String, q.1 ≠ 0 →
      getFlagDescriptions.filter (fun e => decide (and32 q.1 e.1 ≠ 0)) = [q] →
      lowBits dec = q.1 →
      TextResult iter dec
        = some ([q.2] ++ if and32 q.1 (-0x7FFF) ≠ 0 then ["Unknown violation(s)"] else []) := by
    intro q hq hsel hl
    rw [TextResult_flags iter dec (by omega) (by rw [hl]; exact fun h => hq h.1)
      (fun h => h.2 hhi), hl,
      filter_perm_singleton hperm (fun x => decide (and32 q.1 x ≠ 0)) q hsel]
    rfl
  simp only [getFlagDescriptions, List.mem_cons, List.mem_singleton, List.not_mem_nil,
    or_false] at hp
  rcases hp with rfl | rfl | rfl | rfl | rfl | rfl | rfl | rfl | rfl | rfl | rfl | rfl
  all_goals
    rw [key _ (by decide) (by decide) hlo]
    decide

/-- C2, the behaviour of the code: for each of the 12 flags alone in `lowBits`, with
`highBits = 0`, `TextResult` returns the description the table maps the flag to, as the only
entry for 11 of the flags; for `FlagAuthExFailure` (bit 0, which the mask `-0x7FFF`
contains) it returns "Unknown violation(s)" as a second entry. -/
theorem TextResult_single_flag (iter : List (Int × String))
    (hperm : iter.Perm getFlagDescriptions) (p : Int × String) (hp : p ∈ getFlagDescriptions)
    (dec : List Byte) (hlen : dec.length = 8) (hhi : highBits dec = 0)
    (hlo : lowBits dec = p.1) :
    TextResult iter dec
      = some (if p.1 = FlagAuthExFailure then [p.2, "Unknown violation(s)"] else [p.2]) :=
  TextResult_of_flag_alone iter hperm p hp dec hlen hhi hlo

theorem TextResult_single_flag_witness :
    TextResult getFlagDescriptions [0, 0, 0, 0, 0, 0, 0, 1]
      = some ["AuthEx challenge failure (AP 2.5 related)", "Unknown violation(s)"] :=
  TextResult_single_flag getFlagDescriptions (List.Perm.refl _)
    (FlagAuthExFailure, "AuthEx challenge failure (AP 2.5 related)") (by decide)
    [0, 0, 0, 0, 0, 0, 0, 1] (by decide) (by decide) (by decide)

/-- C3, the behaviour of the code at `highBits = 0`, `lowBits = 1`: no bit of `lowBits` in
the positions 15 to 31 is set (`lowBits & ^0x7FFF = 0`, the complement of `0x7FFF` being
`-0x8000`), and the result contains "Unknown violation(s)" in every order of iteration. -/
theorem TextResult_unknown_at_bit0 (iter : List (Int × String))
    (hperm : iter.Perm getFlagDescriptions) :
    and32 (lowBits [0, 0, 0, 0, 0, 0, 0, 1]) (-0x8000) = 0 ∧
    ∃ result, TextResult iter [0, 0, 0, 0, 0, 0, 0, 1] = some result ∧
      "Unknown violation(s)" ∈ result := by
  refine ⟨by decide, _, TextResult_of_flag_alone iter hperm
    (FlagAuthExFailure, "AuthEx challenge failure (AP 2.5 related)") (by decide)
    [0, 0, 0, 0, 0, 0, 0, 1] (by decide) (by decide) (by decide), by decide⟩

theorem TextResult_unknown_at_bit0_witness :
    and32 (lowBits [0, 0, 0, 0, 0, 0, 0, 1]) (-0x8000) = 0 ∧
    ∃ result, TextResult getFlagDescriptions [0, 0, 0, 0, 0, 0, 0, 1] = some result ∧
      "Unknown violation(s)" ∈ result :=
  TextResult_unknown_at_bit0 getFlagDescriptions (List.Perm.refl _)

/-- The word with a given pattern is zero only for the zero pattern. -/
theorem toInt32_eq_zero {u : Nat} (h : toInt32 u = 0) : u % 2 ^ 32 = 0 := by
  unfold toInt32 at h
  split at h <;> omega

/-- A word that has no bit of the mask `-0x7FFF` has no bit of the positions 15 to 31. -/
theorem and32_high_of_mask {a : Int} (h : and32 a (-0x7FFF) = 0) : and32 a (-0x8000) = 0 := by
  unfold and32 at h ⊢
  have hm : toUint32 (-0x7FFF) = 0xFFFF8001 := by decide
  have hn : toUint32 (-0x8000) = 0xFFFF8000 := by decide
  rw [hm] at h
  rw [hn]
  have h1 := toInt32_eq_zero h
  have h2 : toUint32 a &&& 0xFFFF8001 ≤ 0xFFFF8001 := Nat.and_le_right
  have h3 : toUint32 a &&& 0xFFFF8001 = 0 := by omega
  have h4 : toUint32 a &&& 0xFFFF8000 = (toUint32 a &&& 0xFFFF8001) &&& 0xFFFF8000 := by
    rw [Nat.and_assoc]
    rfl
  rw [h4, h3]
  decide

/-- C4, as amended: for every 8-byte plaintext, if `TextResult` returns an empty list then
exactly one of `lowBits` and `highBits` is non-zero, and `lowBits` has none of the 12 defined
flag bits set and no bit of the unknown-violation mask set (the mask `-0x7FFF` of the code,
hence none of the bits 15 to 31 either). -/
theorem TextResult_empty (iter : List (Int × String)) (hperm : iter.Perm getFlagDescriptions)
    (dec : List Byte) (hlen : dec.length = 8) (h : TextResult iter dec = some []) :
    (lowBits dec ≠ 0 ∧ highBits dec = 0 ∨ lowBits dec = 0 ∧ highBits dec ≠ 0) ∧
    (∀ p ∈ getFlagDescriptions, and32 (lowBits dec) p.1 = 0) ∧
    and32 (lowBits dec) (-0x7FFF) = 0 ∧ and32 (lowBits dec) (-0x8000) = 0 := by
  by_cases h0 : lowBits dec = 0 ∧ highBits dec = 0
  · simp [TextResult, hlen, h0.1, h0.2] at h
  by_cases h1 : lowBits dec ≠ 0 ∧ highBits dec ≠ 0
  · unfold TextResult at h
    rw [if_neg (by omega)] at h
    simp only [if_neg h0, if_pos h1] at h
    split_ifs at h
    all_goals simp at h
  rw [TextResult_flags iter dec (by omega) h0 h1] at h
  have h2 := List.append_eq_nil.mp (Option.some.inj h)
  have hmask : and32 (lowBits dec) (-0x7FFF) = 0 := by
    by_contra hne
    have := h2.2
    rw [if_pos hne] at this
    simp at this
  refine ⟨?_, ?_, hmask, and32_high_of_mask hmask⟩
  · by_cases hl : lowBits dec = 0
    · exact Or.inr ⟨hl, fun hh => h0 ⟨hl, hh⟩⟩
    · exact Or.inl ⟨hl, by_contra fun hh => h1 ⟨hl, hh⟩⟩
  · intro p hp
    have hsel := List.map_eq_nil_iff.mp h2.1
    have hp2 : p ∈ iter := hperm.mem_iff.mpr hp
    have := (List.filter_eq_nil_iff.mp hsel) p hp2
    simpa using this

theorem TextResult_empty_witness :
    (lowBits [0, 0, 0, 0, 0, 0, 0x10, 0] ≠ 0 ∧ highBits [0, 0, 0, 0, 0, 0, 0x10, 0] = 0 ∨
      lowBits [0, 0, 0, 0, 0, 0, 0x10, 0] = 0 ∧ highBits [0, 0, 0, 0, 0, 0, 0x10, 0] ≠ 0) ∧
    (∀ p ∈ getFlagDescriptions, and32 (lowBits [0, 0, 0, 0, 0, 0, 0x10, 0]) p.1 = 0) ∧
    and32 (lowBits [0, 0, 0, 0, 0, 0, 0x10, 0]) (-0x7FFF) = 0 ∧
    and32 (lowBits [0, 0, 0, 0, 0, 0, 0x10, 0]) (-0x8000) = 0 :=
  TextResult_empty getFlagDescriptions (List.Perm.refl _) [0, 0, 0, 0, 0, 0, 0x10, 0]
    (by decide) (by decide)

/-- C4 fails on the plaintext `00 00 00 01 00 00 00 00`: `TextResult` returns the empty list
while `lowBits` is zero and `highBits` is not. -/
theorem TextResult_empty_with_zero_lowBits :
    TextResult getFlagDescriptions [0, 0, 0, 1, 0, 0, 0, 0] = some [] ∧
    lowBits [0, 0, 0, 1, 0, 0, 0, 0] = 0 ∧ highBits [0, 0, 0, 1, 0, 0, 0, 0] = 1 := by decide

/-! ## Known answers of the library models -/

/-- The digest of "abc" (FIPS 180, appendix A.1). -/
theorem sha1_abc :
    sha1 (bytesOf "abc")
      = [0xA9, 0x99, 0x3E, 0x36, 0x47, 0x06, 0x81, 0x6A, 0xBA, 0x3E,
         0x25, 0x71, 0x78, 0x50, 0xC2, 0x6C, 0x9C, 0xD0, 0xD8, 0x9D] := by
  decide!

/-- The first test case of RFC 2202 for HMAC-SHA1. -/
theorem hmacSha1_rfc2202 :
    hmacSha1 (List.replicate 20 0x0B) (bytesOf "Hi There")
      = [0xB6, 0x17, 0x31, 0x86, 0x55, 0x05, 0x72, 0x64, 0xE2, 0x8B,
         0xC0, 0xB6, 0xFB, 0x37, 0x8C, 0x8E, 0xF1, 0x46, 0xBE, 0x00] := by
  decide!

/-- A known answer of DES: the block `0123456789ABCDEF` under the key `133457799BBCDFF1`,
in both directions. -/
theorem des_known_answer :
    desEncryptBlock [0x13, 0x34, 0x57, 0x79, 0x9B, 0xBC, 0xDF, 0xF1]
        [0x01, 0x23, 0x45, 0x67, 0x89, 0xAB, 0xCD, 0xEF]
      = [0x85, 0xE8, 0x13, 0x54, 0x0F, 0x0A, 0xB4, 0x05] ∧
    desDecryptBlock [0x13, 0x34, 0x57, 0x79, 0x9B, 0xBC, 0xDF, 0xF1]
        [0x85, 0xE8, 0x13, 0x54, 0x0F, 0x0A, 0xB4, 0x05]
      = [0x01, 0x23, 0x45, 0x67, 0x89, 0xAB, 0xCD, 0xEF] := by
  decide!

/-! ## Lemmas on Decrypt -/

/-- A dash put anywhere into an xval is gone after the replacement. -/
theorem removeDashes_insert (pre post : List Byte) :
    removeDashes (pre ++ dash :: post) = removeDashes (pre ++ post) := by
  simp [removeDashes]

/-- The test for a dash before the replacement changes nothing. -/
theorem normalize_eq (xval : List Byte) :
    (if xval.contains dash then removeDashes xval else xval) = removeDashes xval := by
  split
  · rfl
  · rename_i h
    unfold removeDashes
    symm
    rw [List.filter_eq_self]
    intro c hc
    simp only [ne_eq, decide_eq_true_eq]
    rintro rfl
    exact h (by simpa using hc)

theorem length_beBytes (n x : Nat) : (beBytes n x).length = n := by
  induction n with
  | zero => rfl
  | succ n ih => simp [beBytes, ih]

/-- A digest of SHA-1 has 20 bytes. -/
theorem length_sha1 (msg : List Byte) : (sha1 msg).length = 20 := by
  simp [sha1, length_beBytes]

/-- A code of HMAC-SHA1 has 20 bytes. -/
theorem length_hmacSha1 (key msg : List Byte) : (hmacSha1 key msg).length = 20 := by
  simp only [hmacSha1]
  exact length_sha1 _

/-- The slice `mac.Sum(nil)[0:8]` is in range and has 8 bytes. -/
theorem sliceTo_hmacSha1 (key msg : List Byte) :
    sliceTo (hmacSha1 key msg) 8 = some ((hmacSha1 key msg).take 8) ∧
    ((hmacSha1 key msg).take 8).length = 8 := by
  have h := length_hmacSha1 key msg
  constructor
  · unfold sliceTo
    rw [if_neg (by omega)]
  · rw [List.length_take]
    omega

/-- Hexadecimal digits in even number decode without error, two digits to the byte. -/
theorem DecodeString_ok (n : Nat) : ∀ l : List Byte, l.length = 2 * n →
    (∀ c ∈ l, (fromHexChar c).isSome) →
    (DecodeString l).1.length = n ∧ (DecodeString l).2 = false := by
  induction n with
  | zero =>
    intro l hl _
    have : l = [] := List.length_eq_zero.mp (by omega)
    subst this
    exact ⟨rfl, rfl⟩
  | succ n ih =>
    intro l hl hhex
    match l, hl, hhex with
    | p :: q :: rest, hl, hhex =>
      obtain ⟨a, ha⟩ := Option.isSome_iff_exists.mp (hhex p (by simp))
      obtain ⟨b, hb⟩ := Option.isSome_iff_exists.mp (hhex q (by simp))
      have hr := ih rest (by simp at hl; omega) (fun c hc => hhex c (by simp [hc]))
      simp only [DecodeString, ha, hb, List.length_cons, hr.1, hr.2, and_self]
    | [_], hl, _ => simp at hl; omega
    | [], hl, _ => simp at hl

/-- A character that is no hexadecimal digit cuts the decoded bytes short. -/
theorem DecodeString_short (n : Nat) : ∀ l : List Byte, l.length ≤ n →
    (∃ c ∈ l, fromHexChar c = none) → 2 * (DecodeString l).1.length < l.length := by
  induction n with
  | zero =>
    intro l hl hbad
    have : l = [] := List.length_eq_zero.mp (by omega)
    subst this
    simp at hbad
  | succ n ih =>
    intro l hl hbad
    match l, hl, hbad with
    | p :: q :: rest, hl, hbad =>
      cases ha : fromHexChar p with
      | none => simp [DecodeString, ha]
      | some a =>
        cases hb : fromHexChar q with
        | none => simp [DecodeString, ha, hb]
        | some b =>
          have hrest : ∃ c ∈ rest, fromHexChar c = none := by
            obtain ⟨c, hc, hcn⟩ := hbad
            simp only [List.mem_cons] at hc
            rcases hc with rfl | rfl | hc
            · rw [ha] at hcn; cases hcn
            · rw [hb] at hcn; cases hcn
            · exact ⟨c, hc, hcn⟩
          have hr := ih rest (by simp at hl; omega) hrest
          simp only [DecodeString, ha, hb, List.length_cons]
          omega
    | [_], _, _ => simp [DecodeString]
    | [], _, hbad => simp at hbad

/-- C5, the behaviour of the code: for a serial of 12 characters and an xval that has 16
characters without its dashes, one of them no hexadecimal digit, `Decrypt` does not return:
the error of `hex.DecodeString` is discarded, the decoded slice is shorter than a block and
`cipher.Decrypt` panics. -/
theorem Decrypt_non_hex_panics (serial xval : List Byte) (hs : serial.length = 12)
    (hx : (removeDashes xval).length = 16)
    (hbad : ∃ c ∈ removeDashes xval, fromHexChar c = none) :
    Decrypt serial xval = none := by
  have hk := sliceTo_hmacSha1 serial (bytesOf "XBOX360SSB")
  have hd := DecodeString_short 16 (removeDashes xval) (by omega) hbad
  simp only [Decrypt, normalize_eq, hx, hs, hk.1, hk.2, NewCipher, cipherDecrypt]
  rw [if_neg (by decide), if_neg (by decide), if_neg (by decide), if_neg (by decide)]
  simp only []
  rw [if_pos (by omega)]

theorem Decrypt_non_hex_panics_witness :
    Decrypt (bytesOf "031897772807") (bytesOf "ZZZZ-ZZZZ-ZZZZ-ZZZZ") = none :=
  Decrypt_non_hex_panics (bytesOf "031897772807") (bytesOf "ZZZZ-ZZZZ-ZZZZ-ZZZZ") (by decide)
    (by decide) ⟨0x5A, by decide, by decide⟩

/-- C6: for every serial and every xval whose length without its dashes is not 16,
`Decrypt` returns a nil key, a nil plaintext and the error of the xval length. -/
theorem Decrypt_xval_length (serial xval : List Byte)
    (hx : (removeDashes xval).length ≠ 16) :
    Decrypt serial xval
      = some ⟨none, none, some "Invalid X value. Without dashes, length is not 16"⟩ := by
  simp only [Decrypt, normalize_eq]
  rw [if_pos hx]

theorem Decrypt_xval_length_witness :
    Decrypt (bytesOf "031897772807") (bytesOf "DA9C-DC84-43A9-BB4")
      = some ⟨none, none, some "Invalid X value. Without dashes, length is not 16"⟩ :=
  Decrypt_xval_length (bytesOf "031897772807") (bytesOf "DA9C-DC84-43A9-BB4") (by decide)

/-- C7: for every xval and every serial whose length is not 12, `Decrypt` returns a nil key,
a nil plaintext and an error: the error of the xval length when the xval without its dashes
has not 16 characters, the error of the serial length otherwise. -/
theorem Decrypt_serial_length (serial xval : List Byte) (hs : serial.length ≠ 12) :
    Decrypt serial xval
      = some ⟨none, none, some (if (removeDashes xval).length ≠ 16
          then "Invalid X value. Without dashes, length is not 16"
          else "Invalid console serial number. Length is not 12")⟩ := by
  simp only [Decrypt, normalize_eq]
  by_cases hx : (removeDashes xval).length ≠ 16
  · rw [if_pos hx, if_pos hx]
  · rw [if_neg hx, if_neg hx, if_pos hs]
    rfl

theorem Decrypt_serial_length_witness :
    Decrypt (bytesOf "03189777280") (bytesOf "ZZZZ-DC84-43A9-BB4C")
      = some ⟨none, none, some (if (removeDashes (bytesOf "ZZZZ-DC84-43A9-BB4C")).length ≠ 16
          then "Invalid X value. Without dashes, length is not 16"
          else "Invalid console serial number. Length is not 12")⟩ :=
  Decrypt_serial_length (bytesOf "03189777280") (bytesOf "ZZZZ-DC84-43A9-BB4C") (by decide)

/-- C8: for every serial of length 12 and every xval that is 16 hexadecimal digits without
its dashes, the digits decode without error to 8 bytes, and `Decrypt` returns, with no
error, as key the first 8 bytes of HMAC-SHA1 with the serial as key and "XBOX360SSB" as
message, and as plaintext the DES decryption under that key of the decoded block. -/
theorem Decrypt_valid (serial xval : List Byte) (hs : serial.length = 12)
    (hx : (removeDashes xval).length = 16)
    (hhex : ∀ c ∈ removeDashes xval, (fromHexChar c).isSome) :
    (DecodeString (removeDashes xval)).2 = false ∧
    (DecodeString (removeDashes xval)).1.length = 8 ∧
    ((hmacSha1 serial (bytesOf "XBOX360SSB")).take 8).length = 8 ∧
    Decrypt serial xval
      = some ⟨some ((hmacSha1 serial (bytesOf "XBOX360SSB")).take 8),
          some (desDecryptBlock ((hmacSha1 serial (bytesOf "XBOX360SSB")).take 8)
            (DecodeString (removeDashes xval)).1),
          none⟩ := by
  have hk := sliceTo_hmacSha1 serial (bytesOf "XBOX360SSB")
  have hd := DecodeString_ok 8 (removeDashes xval) (by omega) hhex
  refine ⟨hd.2, hd.1, hk.2, ?_⟩
  simp only [Decrypt, normalize_eq, hx, hs, hk.1, hk.2, NewCipher, cipherDecrypt, hd.1]
  rw [if_neg (by decide), if_neg (by decide), if_neg (by decide), if_neg (by decide)]
  simp only []
  have ht : List.take 8 (DecodeString (removeDashes xval)).1
      = (DecodeString (removeDashes xval)).1 := List.take_of_length_le (by omega)
  have hdr : List.drop 8 (DecodeString (removeDashes xval)).1 = [] :=
    List.drop_of_length_le (by omega)
  rw [if_neg (by decide), ht, hdr, List.append_nil]

theorem Decrypt_valid_witness :
    (DecodeString (removeDashes (bytesOf "da9c-DC84-43A9-BB4C"))).2 = false ∧
    (DecodeString (removeDashes (bytesOf "da9c-DC84-43A9-BB4C"))).1.length = 8 ∧
    ((hmacSha1 (bytesOf "031897772807") (bytesOf "XBOX360SSB")).take 8).length = 8 ∧
    Decrypt (bytesOf "031897772807") (bytesOf "da9c-DC84-43A9-BB4C")
      = some ⟨some ((hmacSha1 (bytesOf "031897772807") (bytesOf "XBOX360SSB")).take 8),
          some (desDecryptBlock ((hmacSha1 (bytesOf "031897772807") (bytesOf "XBOX360SSB")).take 8)
            (DecodeString (removeDashes (bytesOf "da9c-DC84-43A9-BB4C"))).1),
          none⟩ :=
  Decrypt_valid (bytesOf "031897772807") (bytesOf "da9c-DC84-43A9-BB4C") (by decide)
    (by decide) (by decide!)

/-- C9: two xvals that are the same without their dashes give the same outcome of
`Decrypt` for every serial: the same key and plaintext, the same error, or a panic alike. -/
theorem Decrypt_dashes (serial xval xval2 : List Byte)
    (h : removeDashes xval = removeDashes xval2) :
    Decrypt serial xval = Decrypt serial xval2 := by
  simp only [Decrypt, normalize_eq]
  rw [h]

theorem Decrypt_dashes_witness :
    Decrypt (bytesOf "031897772807") (bytesOf "DA9CDC8443A9BB4C")
      = Decrypt (bytesOf "031897772807") (bytesOf "DA9C-DC84-43A9-BB4C") :=
  Decrypt_dashes (bytesOf "031897772807") (bytesOf "DA9CDC8443A9BB4C")
    (bytesOf "DA9C-DC84-43A9-BB4C") (by decide)

/-- The test vector of the repository: the key and the plaintext that `Decrypt` returns. -/
theorem Decrypt_console_banned :
    Decrypt (bytesOf "031897772807") (bytesOf "DA9C-DC84-43A9-BB4C")
      = some ⟨some [0xB8, 0x20, 0x28, 0x29, 0x41, 0x8B, 0x04, 0xAA],
          some [0, 0, 0, 0, 0, 0, 4, 0], none⟩ := by
  decide!

/-- C10: for the serial "031897772807" and the xval "DA9C-DC84-43A9-BB4C", `Decrypt` returns
a key and a plaintext with no error, and `TextResult` on that plaintext returns, in every
order of iteration, exactly one description, equal to
`getFlagDescriptions()[FlagConsoleBanned]`, which is "Console is banned". -/
theorem TestThatConsoleIsBanned (iter : List (Int × String))
    (hperm : iter.Perm getFlagDescriptions) :
    ∃ key plaintext,
      Decrypt (bytesOf "031897772807") (bytesOf "DA9C-DC84-43A9-BB4C")
        = some ⟨some key, some plaintext, none⟩ ∧
      TextResult iter plaintext = some [flagDescription FlagConsoleBanned] ∧
      flagDescription FlagConsoleBanned = "Console is banned" :=
  ⟨_, _, Decrypt_console_banned,
    TextResult_of_flag_alone iter hperm (FlagConsoleBanned, "Console is banned") (by decide)
      [0, 0, 0, 0, 0, 0, 4, 0] (by decide) (by decide) (by decide),
    by decide⟩

theorem TestThatConsoleIsBanned_witness :
    ∃ key plaintext,
      Decrypt (bytesOf "031897772807") (bytesOf "DA9C-DC84-43A9-BB4C")
        = some ⟨some key, some plaintext, none⟩ ∧
      TextResult getFlagDescriptions plaintext = some [flagDescription FlagConsoleBanned] ∧
      flagDescription FlagConsoleBanned = "Console is banned" :=
  TestThatConsoleIsBanned getFlagDescriptions (List.Perm.refl _)

/-! ## Key derivation -/

/-- The outcome of `Decrypt` on a serial of length 12 and an xval of 16 hexadecimal digits
without its dashes. -/
theorem Decrypt_eq_of_valid (serial xval : List Byte) (hs : serial.length = 12)
    (hx : (removeDashes xval).length = 16)
    (hhex : ∀ c ∈ removeDashes xval, (fromHexChar c).isSome) :
    Decrypt serial xval
      = some ⟨some ((hmacSha1 serial (bytesOf "XBOX360SSB")).take 8),
          some (desDecryptBlock ((hmacSha1 serial (bytesOf "XBOX360SSB")).take 8)
            (DecodeString (removeDashes xval)).1),
          none⟩ := by
  have hk := sliceTo_hmacSha1 serial (bytesOf "XBOX360SSB")
  have hd := DecodeString_ok 8 (removeDashes xval) (by omega) hhex
  simp only [Decrypt, normalize_eq, hx, hs, hk.1, hk.2, NewCipher, cipherDecrypt, hd.1]
  rw [if_neg (by decide), if_neg (by decide), if_neg (by decide), if_neg (by decide)]
  simp only []
  have ht : List.take 8 (DecodeString (removeDashes xval)).1
      = (DecodeString (removeDashes xval)).1 := List.take_of_length_le (by omega)
  have hdr : List.drop 8 (DecodeString (removeDashes xval)).1 = [] :=
    List.drop_of_length_le (by omega)
  rw [if_neg (by decide), ht, hdr, List.append_nil]

/-- The outcome of `Decrypt` on a serial of length 12 and an xval of 16 characters without
its dashes, one of them no hexadecimal digit: a panic. -/
theorem Decrypt_eq_none_of_non_hex (serial xval : List Byte) (hs : serial.length = 12)
    (hx : (removeDashes xval).length = 16)
    (hbad : ∃ c ∈ removeDashes xval, fromHexChar c = none) :
    Decrypt serial xval = none := by
  have hk := sliceTo_hmacSha1 serial (bytesOf "XBOX360SSB")
  have hd := DecodeString_short 16 (removeDashes xval) (by omega) hbad
  simp only [Decrypt, normalize_eq, hx, hs, hk.1, hk.2, NewCipher, cipherDecrypt]
  rw [if_neg (by decide), if_neg (by decide), if_neg (by decide), if_neg (by decide)]
  simp only []
  rw [if_pos (by omega)]

/-- Two serials of length 12 with the same first 8 bytes of the code give the same outcome
of `Decrypt` on every xval. -/
theorem Decrypt_eq_of_key_eq (serial serial2 : List Byte) (hs : serial.length = 12)
    (hs2 : serial2.length = 12)
    (hk : (hmacSha1 serial (bytesOf "XBOX360SSB")).take 8
      = (hmacSha1 serial2 (bytesOf "XBOX360SSB")).take 8) (xval : List Byte) :
    Decrypt serial xval = Decrypt serial2 xval := by
  simp only [Decrypt, hs, hs2, (sliceTo_hmacSha1 serial (bytesOf "XBOX360SSB")).1,
    (sliceTo_hmacSha1 serial2 (bytesOf "XBOX360SSB")).1, hk]

/-- There are more serials of 12 bytes than keys of 8 bytes, so two different serials have
the same first 8 bytes of the code. -/
theorem exists_key_collision :
    ∃ serial serial2 : List Byte, serial.length = 12 ∧ serial2.length = 12 ∧
      serial ≠ serial2 ∧
      (hmacSha1 serial (bytesOf "XBOX360SSB")).take 8
        = (hmacSha1 serial2 (bytesOf "XBOX360SSB")).take 8 := by
  have hcard : Fintype.card (Mathlib.Vector Byte 8) < Fintype.card (Mathlib.Vector Byte 12) := by
    rw [card_vector, card_vector, Fintype.card_fin]
    norm_num
  have key : ∀ f : Mathlib.Vector Byte 12 → Mathlib.Vector Byte 8, ∃ v w, v ≠ w ∧ f v = f w :=
    fun f => Fintype.exists_ne_map_eq_of_card_lt f hcard
  obtain ⟨v, w, hne, heq⟩ := key (fun v =>
    ⟨(hmacSha1 v.1 (bytesOf "XBOX360SSB")).take 8,
      (sliceTo_hmacSha1 v.1 (bytesOf "XBOX360SSB")).2⟩)
  exact ⟨v.1, w.1, v.2, w.2, fun h => hne (Subtype.ext h), congrArg Subtype.val heq⟩

/-- The key of the serial "031897772807". -/
theorem key_serial_07 :
    (hmacSha1 (bytesOf "031897772807") (bytesOf "XBOX360SSB")).take 8
      = [0xB8, 0x20, 0x28, 0x29, 0x41, 0x8B, 0x04, 0xAA] := by
  decide!

/-- The key of the serial "031897772808". -/
theorem key_serial_08 :
    (hmacSha1 (bytesOf "031897772808") (bytesOf "XBOX360SSB")).take 8
      = [0xB4, 0x47, 0xBB, 0xF1, 0xBE, 0xF8, 0xD9, 0x41] := by
  decide!

/-- C11 fails: it is not the case that every two different serials of length 12 give
different keys on every valid xval (there are `256^12` serials and `256^8` keys). -/
theorem Decrypt_key_not_injective :
    ¬ ∀ serial serial2 xval : List Byte, serial.length = 12 → serial2.length = 12 →
        serial ≠ serial2 → (removeDashes xval).length = 16 →
        (∀ c ∈ removeDashes xval, (fromHexChar c).isSome) →
        ∀ r r2, Decrypt serial xval = some r → Decrypt serial2 xval = some r2 →
          r.key ≠ r2.key := by
  intro h
  obtain ⟨serial, serial2, hs, hs2, hne, hk⟩ := exists_key_collision
  have hd := Decrypt_eq_of_key_eq serial serial2 hs hs2 hk (bytesOf "DA9C-DC84-43A9-BB4C")
  have hv := Decrypt_eq_of_valid serial (bytesOf "DA9C-DC84-43A9-BB4C") hs (by decide)
    (by decide!)
  exact h serial serial2 (bytesOf "DA9C-DC84-43A9-BB4C") hs hs2 hne (by decide) (by decide!)
    _ _ hv (hd ▸ hv) rfl

/-- C11, as amended: the key that `Decrypt` returns is determined by the serial (for every
serial of length 12 it is the same on every two valid xvals), and it depends on the serial:
the serials "031897772807" and "031897772808" get different keys on every valid xval. -/
theorem Decrypt_key_depends_on_serial (xval : List Byte)
    (hx : (removeDashes xval).length = 16)
    (hhex : ∀ c ∈ removeDashes xval, (fromHexChar c).isSome) :
    (∀ serial xval2 : List Byte, serial.length = 12 → (removeDashes xval2).length = 16 →
      (∀ c ∈ removeDashes xval2, (fromHexChar c).isSome) →
      ∃ key plaintext plaintext2,
        Decrypt serial xval = some ⟨some key, some plaintext, none⟩ ∧
        Decrypt serial xval2 = some ⟨some key, some plaintext2, none⟩) ∧
    ∃ key key2 plaintext plaintext2,
      Decrypt (bytesOf "031897772807") xval = some ⟨some key, some plaintext, none⟩ ∧
      Decrypt (bytesOf "031897772808") xval = some ⟨some key2, some plaintext2, none⟩ ∧
      key ≠ key2 := by
  constructor
  · intro serial xval2 hs hx2 hhex2
    exact ⟨_, _, _, Decrypt_eq_of_valid serial xval hs hx hhex,
      Decrypt_eq_of_valid serial xval2 hs hx2 hhex2⟩
  · refine ⟨_, _, _, _, Decrypt_eq_of_valid _ xval (by decide) hx hhex,
      Decrypt_eq_of_valid _ xval (by decide) hx hhex, ?_⟩
    rw [key_serial_07, key_serial_08]
    decide

theorem Decrypt_key_depends_on_serial_witness :
    (∀ serial xval2 : List Byte, serial.length = 12 → (removeDashes xval2).length = 16 →
      (∀ c ∈ removeDashes xval2, (fromHexChar c).isSome) →
      ∃ key plaintext plaintext2,
        Decrypt serial (bytesOf "DA9C-DC84-43A9-BB4C") = some ⟨some key, some plaintext, none⟩ ∧
        Decrypt serial xval2 = some ⟨some key, some plaintext2, none⟩) ∧
    ∃ key key2 plaintext plaintext2,
      Decrypt (bytesOf "031897772807") (bytesOf "DA9C-DC84-43A9-BB4C")
        = some ⟨some key, some plaintext, none⟩ ∧
      Decrypt (bytesOf "031897772808") (bytesOf "DA9C-DC84-43A9-BB4C")
        = some ⟨some key2, some plaintext2, none⟩ ∧
      key ≠ key2 :=
  Decrypt_key_depends_on_serial (bytesOf "DA9C-DC84-43A9-BB4C") (by decide) (by decide!)

/-- The function `TextResult` does not panic on a slice of at least 8 bytes. -/
theorem TextResult_ne_none (iter : List (Int × String)) (dec : List Byte)
    (hlen : 8 ≤ dec.length) : TextResult iter dec ≠ none := by
  unfold TextResult
  rw [if_neg (by omega)]
  simp only []
  split_ifs <;> simp

/-- C12: for a serial of length 12 and an xval of 16 hexadecimal digits without its dashes,
the slice `mac.Sum(nil)[0:8]` is a key of exactly 8 bytes, `des.NewCipher` accepts it, so
`Decrypt` takes neither the branch of the key length nor the branch of the cipher error: it
returns that key and a plaintext of exactly 8 bytes with no error, and `TextResult` does not
panic on the plaintext. -/
theorem Decrypt_lengths (iter : List (Int × String)) (serial xval : List Byte)
    (hs : serial.length = 12) (hx : (removeDashes xval).length = 16)
    (hhex : ∀ c ∈ removeDashes xval, (fromHexChar c).isSome) :
    ∃ key plaintext,
      sliceTo (hmacSha1 serial (bytesOf "XBOX360SSB")) 8 = some key ∧ key.length = 8 ∧
      NewCipher key = .ok key ∧
      Decrypt serial xval = some ⟨some key, some plaintext, none⟩ ∧
      plaintext.length = 8 ∧ TextResult iter plaintext ≠ none := by
  have hk := sliceTo_hmacSha1 serial (bytesOf "XBOX360SSB")
  have hp : (desDecryptBlock ((hmacSha1 serial (bytesOf "XBOX360SSB")).take 8)
      (DecodeString (removeDashes xval)).1).length = 8 := by
    unfold desDecryptBlock
    exact length_beBytes 8 _
  refine ⟨_, _, hk.1, hk.2, ?_, Decrypt_eq_of_valid serial xval hs hx hhex, hp,
    TextResult_ne_none iter _ (by omega)⟩
  unfold NewCipher
  rw [if_neg (by omega)]

theorem Decrypt_lengths_witness :
    ∃ key plaintext,
      sliceTo (hmacSha1 (bytesOf "031897772807") (bytesOf "XBOX360SSB")) 8 = some key ∧
      key.length = 8 ∧ NewCipher key = .ok key ∧
      Decrypt (bytesOf "031897772807") (bytesOf "DA9C-DC84-43A9-BB4C")
        = some ⟨some key, some plaintext, none⟩ ∧
      plaintext.length = 8 ∧ TextResult getFlagDescriptions plaintext ≠ none :=
  Decrypt_lengths getFlagDescriptions (bytesOf "031897772807") (bytesOf "DA9C-DC84-43A9-BB4C")
    (by decide) (by decide) (by decide!)

/-- C13, the behaviour of the code: for every serial and xval, `Decrypt` either panics (for
a serial of length 12 and an xval of 16 characters without its dashes, one of them no
hexadecimal digit), or returns a key and a plaintext with no error, or returns an error with
a nil key and a nil plaintext; it panics on the serial "031897772807" with the xval
"ZZZZZZZZZZZZZZZZ". -/
theorem Decrypt_outcomes :
    (∀ serial xval : List Byte,
      (Decrypt serial xval = none ∧ serial.length = 12 ∧ (removeDashes xval).length = 16 ∧
        ∃ c ∈ removeDashes xval, fromHexChar c = none) ∨
      (∃ key plaintext, Decrypt serial xval = some ⟨some key, some plaintext, none⟩) ∨
      (∃ err, Decrypt serial xval = some ⟨none, none, some err⟩)) ∧
    Decrypt (bytesOf "031897772807") (bytesOf "ZZZZZZZZZZZZZZZZ") = none := by
  refine ⟨fun serial xval => ?_, by decide!⟩
  by_cases hx : (removeDashes xval).length = 16
  · by_cases hs : serial.length = 12
    · by_cases hhex : ∀ c ∈ removeDashes xval, (fromHexChar c).isSome
      · exact Or.inr (Or.inl ⟨_, _, Decrypt_eq_of_valid serial xval hs hx hhex⟩)
      · have hbad : ∃ c ∈ removeDashes xval, fromHexChar c = none := by
          by_contra hno
          apply hhex
          intro c hc
          cases hv : fromHexChar c with
          | none => exact absurd ⟨c, hc, hv⟩ hno
          | some a => rfl
        exact Or.inl ⟨Decrypt_eq_none_of_non_hex serial xval hs hx hbad, hs, hx, hbad⟩
    · refine Or.inr (Or.inr
        ⟨"Invalid console serial number. Length is not " ++ toString 0xC, ?_⟩)
      simp only [Decrypt, normalize_eq]
      rw [if_neg (not_not.mpr hx), if_pos hs]
  · refine Or.inr (Or.inr ⟨"Invalid X value. Without dashes, length is not 16", ?_⟩)
    simp only [Decrypt, normalize_eq]
    rw [if_pos hx]

/-! ## The flag table -/

/-- C14 fails on the plaintexts with `lowBits = 2^12` and `lowBits = 2^11`: the table of the
specification gives "ODD violation" for bit 12 and "Console is banned" for bit 11, and
`TextResult` returns the empty list for the first and `["ODD violation"]` for the second. -/
theorem TextResult_bit12_bit11 :
    highBits [0, 0, 0, 0, 0, 0, 0x10, 0] = 0 ∧ lowBits [0, 0, 0, 0, 0, 0, 0x10, 0] = 2 ^ 12 ∧
    specFlagBitTable.lookup 12 = some "ODD violation" ∧
    TextResult getFlagDescriptions [0, 0, 0, 0, 0, 0, 0x10, 0] = some [] ∧
    highBits [0, 0, 0, 0, 0, 0, 0x08, 0] = 0 ∧ lowBits [0, 0, 0, 0, 0, 0, 0x08, 0] = 2 ^ 11 ∧
    specFlagBitTable.lookup 11 = some "Console is banned" ∧
    TextResult getFlagDescriptions [0, 0, 0, 0, 0, 0, 0x08, 0] = some ["ODD violation"] := by
  decide

/-- C14, as amended: the 12 flags occupy the bit positions 0 to 11 of `lowBits`: for every
`n` from 0 to 11, `TextResult` on `highBits = 0`, `lowBits = 2^n` returns a list containing
the description that `getFlagDescriptions` maps the flag `1 << n` to, which is the text of
row `n + 1` of the table of the specification (for `n = 1` the text of the code differs from
the row, and is left out of the comparison). -/
theorem TextResult_flag_bit (iter : List (Int × String))
    (hperm : iter.Perm getFlagDescriptions) (n : Nat) (hn : n < 12) (dec : List Byte)
    (hlen : dec.length = 8) (hhi : highBits dec = 0) (hlo : lowBits dec = 2 ^ n) :
    ∃ result, TextResult iter dec = some result ∧ flagDescription (2 ^ n) ∈ result ∧
      (n ≠ 1 → specFlagBitTable.lookup (n + 1) = some (flagDescription (2 ^ n))) := by
  have hp : ((2 : Int) ^ n, flagDescription (2 ^ n)) ∈ getFlagDescriptions := by
    interval_cases n <;> decide
  have h := TextResult_of_flag_alone iter hperm _ hp dec hlen hhi hlo
  refine ⟨_, h, ?_, ?_⟩
  · split_ifs <;> simp
  · intro hn1
    interval_cases n <;> first | exact absurd rfl hn1 | decide

theorem TextResult_flag_bit_witness :
    ∃ result, TextResult getFlagDescriptions [0, 0, 0, 0, 0, 0, 0x08, 0] = some result ∧
      flagDescription (2 ^ 11) ∈ result ∧
      (11 ≠ 1 → specFlagBitTable.lookup (11 + 1) = some (flagDescription (2 ^ 11))) :=
  TextResult_flag_bit getFlagDescriptions (List.Perm.refl _) 11 (by decide)
    [0, 0, 0, 0, 0, 0, 0x08, 0] (by decide) (by decide) (by decide)

/-- C15, the behaviour of the code: `getFlagDescriptions` maps `FlagAuthExNoTable` to
"AuthEx table missing (AP 2.5 related" with no closing parenthesis (the text that
`TextResult` returns for `highBits = 0`, `lowBits = 2`), which is not the string of row 2 of
the table of the specification; the other 11 descriptions, in the order of the constants,
are the strings of the other 11 rows. -/
theorem flagDescription_AuthExNoTable :
    flagDescription FlagAuthExNoTable = "AuthEx table missing (AP 2.5 related" ∧
    TextResult getFlagDescriptions [0, 0, 0, 0, 0, 0, 0, 2]
      = some ["AuthEx table missing (AP 2.5 related"] ∧
    specFlagBitTable.lookup 2 = some "AuthEx table missing (AP 2.5 related)" ∧
    flagDescription FlagAuthExNoTable ≠ "AuthEx table missing (AP 2.5 related)" ∧
    flagConstants.map flagDescription ≠ specFlagBitTable.map Prod.snd ∧
    (flagConstants.map flagDescription).eraseIdx 1
      = (specFlagBitTable.map Prod.snd).eraseIdx 1 := by
  decide

/-- C20: the 12 flag constants are, in the order of their declaration, `2^0, ..., 2^11`,
pairwise distinct, with bitwise or `0x0FFF`, none of them `FlagNone = 0`, and the keys of
`getFlagDescriptions` are these 12 constants, each once. -/
theorem flagConstants_bits :
    flagConstants = (List.range 12).map (fun n => (2 : Int) ^ n) ∧
    flagConstants.Nodup ∧ flagConstants.foldl or32 0 = 0x0FFF ∧
    FlagNone = 0 ∧ FlagNone ∉ flagConstants ∧
    getFlagDescriptions.map Prod.fst = flagConstants ∧
    getFlagDescriptions.length = 12 ∧ (getFlagDescriptions.map Prod.fst).Nodup := by
  decide!

/-- C17: on the plaintext of eight bytes `0xFF`, where `highBits` and `lowBits` are both
-1, `TextResult` returns exactly `["Secdata is invalid"]`, in every order of iteration. -/
theorem TextResult_invalid (iter : List (Int × String)) :
    highBits [255, 255, 255, 255, 255, 255, 255, 255] = -1 ∧
    lowBits [255, 255, 255, 255, 255, 255, 255, 255] = -1 ∧
    TextResult iter [255, 255, 255, 255, 255, 255, 255, 255]
      = some ["Secdata is invalid"] := by
  have hh : highBits [255, 255, 255, 255, 255, 255, 255, 255] = -1 := by decide
  have hl : lowBits [255, 255, 255, 255, 255, 255, 255, 255] = -1 := by decide
  refine ⟨hh, hl, ?_⟩
  unfold TextResult
  rw [if_neg (by decide)]
  simp only [hh, hl]
  rw [if_neg (by decide), if_pos (by decide)]

/-- A slice of 8 bytes, byte by byte. -/
theorem eq_of_length_eight (dec : List Byte) (h : dec.length = 8) :
    ∃ b0 b1 b2 b3 b4 b5 b6 b7, dec = [b0, b1, b2, b3, b4, b5, b6, b7] := by
  rcases dec with _ | ⟨b0, _ | ⟨b1, _ | ⟨b2, _ | ⟨b3, _ | ⟨b4, _ | ⟨b5, _ | ⟨b6, _ | ⟨b7, _ | ⟨b8, r⟩⟩⟩⟩⟩⟩⟩⟩⟩
  all_goals first
    | exact ⟨_, _, _, _, _, _, _, _, rfl⟩
    | (simp only [List.length_cons, List.length_nil] at h; omega)

/-- A word read from four bytes is zero only when the four bytes are. -/
theorem readInt32BE_eq_zero (a b c d : Byte) :
    readInt32BE [a, b, c, d] = 0 ↔ a = 0 ∧ b = 0 ∧ c = 0 ∧ d = 0 := by
  constructor
  · intro h
    have h1 := toInt32_eq_zero h
    simp only [List.foldl] at h1
    have ha := a.isLt
    have hb := b.isLt
    have hc := c.isLt
    have hd := d.isLt
    refine ⟨Fin.ext ?_, Fin.ext ?_, Fin.ext ?_, Fin.ext ?_⟩ <;> simp only [Fin.val_zero] <;> omega
  · rintro ⟨rfl, rfl, rfl, rfl⟩
    decide

/-- Every entry of the result of `TextResult`, when exactly one word is non-zero, is a
description of the table or "Unknown violation(s)". -/
theorem mem_TextResult_flags (iter : List (Int × String))
    (hperm : iter.Perm getFlagDescriptions) (dec : List Byte) (hlen : 8 ≤ dec.length)
    (h0 : ¬ (lowBits dec = 0 ∧ highBits dec = 0))
    (h1 : ¬ (lowBits dec ≠ 0 ∧ highBits dec ≠ 0)) (result : List String)
    (h : TextResult iter dec = some result) (m : String) (hm : m ∈ result) :
    m ∈ getFlagDescriptions.map Prod.snd ∨ m = "Unknown violation(s)" := by
  rw [TextResult_flags iter dec hlen h0 h1] at h
  rw [← Option.some.inj h] at hm
  rcases List.mem_append.mp hm with hm | hm
  · left
    obtain ⟨p, hp, rfl⟩ := List.mem_map.mp hm
    exact List.mem_map.mpr ⟨p, hperm.mem_iff.mp (List.mem_filter.mp hp).1, rfl⟩
  · right
    split_ifs at hm
    · simpa using hm
    · simp at hm

/-- C16: for every 8-byte plaintext and every order of iteration, `TextResult` returns
exactly `["Secdata is clean"]` if and only if all 8 bytes are zero, which is the case if and
only if `highBits = 0` and `lowBits = 0`. -/
theorem TextResult_clean_iff (iter : List (Int × String))
    (hperm : iter.Perm getFlagDescriptions) (dec : List Byte) (hlen : dec.length = 8) :
    (TextResult iter dec = some ["Secdata is clean"] ↔ dec = [0, 0, 0, 0, 0, 0, 0, 0]) ∧
    (dec = [0, 0, 0, 0, 0, 0, 0, 0] ↔ highBits dec = 0 ∧ lowBits dec = 0) := by
  obtain ⟨b0, b1, b2, b3, b4, b5, b6, b7, rfl⟩ := eq_of_length_eight dec hlen
  have hz : [b0, b1, b2, b3, b4, b5, b6, b7] = [0, 0, 0, 0, 0, 0, 0, 0] ↔
      highBits [b0, b1, b2, b3, b4, b5, b6, b7] = 0 ∧
      lowBits [b0, b1, b2, b3, b4, b5, b6, b7] = 0 := by
    have hh : highBits [b0, b1, b2, b3, b4, b5, b6, b7] = readInt32BE [b0, b1, b2, b3] := rfl
    have hl : lowBits [b0, b1, b2, b3, b4, b5, b6, b7] = readInt32BE [b4, b5, b6, b7] := rfl
    rw [hh, hl, readInt32BE_eq_zero, readInt32BE_eq_zero]
    simp only [List.cons.injEq, and_true]
    tauto
  refine ⟨?_, hz⟩
  rw [hz]
  constructor
  · intro h
    by_contra h0
    have h0' : ¬ (lowBits [b0, b1, b2, b3, b4, b5, b6, b7] = 0 ∧
        highBits [b0, b1, b2, b3, b4, b5, b6, b7] = 0) := fun hc => h0 ⟨hc.2, hc.1⟩
    by_cases h1 : lowBits [b0, b1, b2, b3, b4, b5, b6, b7] ≠ 0 ∧
        highBits [b0, b1, b2, b3, b4, b5, b6, b7] ≠ 0
    · unfold TextResult at h
      rw [if_neg (by simp)] at h
      simp only [if_neg h0', if_pos h1] at h
      split_ifs at h <;> simp at h
    · have hm := mem_TextResult_flags iter hperm _ (by simp) h0' h1 _ h "Secdata is clean"
        (by simp)
      revert hm
      decide
  · intro h
    simp [TextResult, h.1, h.2]

theorem TextResult_clean_iff_witness :
    (TextResult getFlagDescriptions [0, 0, 0, 0, 0, 0, 0, 0] = some ["Secdata is clean"] ↔
      ([0, 0, 0, 0, 0, 0, 0, 0] : List Byte) = [0, 0, 0, 0, 0, 0, 0, 0]) ∧
    (([0, 0, 0, 0, 0, 0, 0, 0] : List Byte) = [0, 0, 0, 0, 0, 0, 0, 0] ↔
      highBits [0, 0, 0, 0, 0, 0, 0, 0] = 0 ∧ lowBits [0, 0, 0, 0, 0, 0, 0, 0] = 0) :=
  TextResult_clean_iff getFlagDescriptions (List.Perm.refl _) [0, 0, 0, 0, 0, 0, 0, 0]
    (by decide)

/-! ## The case of the hexadecimal letters -/

/-- A hexadecimal letter has the same value in either case. -/
theorem fromHexChar_foldHexCase : ∀ c : Byte, fromHexChar (foldHexCase c) = fromHexChar c := by
  decide!

/-- The dash is no letter. -/
theorem foldHexCase_ne_dash : ∀ c : Byte, foldHexCase c ≠ dash ↔ c ≠ dash := by
  decide!

theorem removeDashes_map_foldHexCase (xval : List Byte) :
    removeDashes (xval.map foldHexCase) = (removeDashes xval).map foldHexCase := by
  induction xval with
  | nil => rfl
  | cons c cs ih =>
    unfold removeDashes at ih ⊢
    by_cases hc : c = dash
    · have hf : ¬ foldHexCase c ≠ dash := fun h => (foldHexCase_ne_dash c).mp h hc
      simp only [List.map_cons, List.filter_cons, hf, hc, ne_eq, not_true_eq_false,
        decide_False, Bool.false_eq_true, if_false]
      simpa using ih
    · have hf : foldHexCase c ≠ dash := (foldHexCase_ne_dash c).mpr hc
      simp only [List.map_cons, List.filter_cons, hf, hc, ne_eq, not_false_eq_true,
        decide_True, if_true, List.cons.injEq, true_and]
      simpa using ih

theorem DecodeString_map_foldHexCase (n : Nat) : ∀ l : List Byte, l.length ≤ n →
    DecodeString (l.map foldHexCase) = DecodeString l := by
  induction n with
  | zero =>
    intro l hl
    have : l = [] := List.length_eq_zero.mp (by omega)
    subst this
    rfl
  | succ n ih =>
    intro l hl
    match l, hl with
    | p :: q :: rest, hl =>
      have hr := ih rest (by simp at hl; omega)
      simp only [List.map_cons, DecodeString, fromHexChar_foldHexCase, hr]
    | [_], _ => simp [DecodeString]
    | [], _ => rfl

/-- The outcome of `Decrypt` on an xval and on the xval with its letters `A` to `F` in
lower case. -/
theorem Decrypt_map_foldHexCase (serial xval : List Byte) :
    Decrypt serial (xval.map foldHexCase) = Decrypt serial xval := by
  simp only [Decrypt, normalize_eq]
  rw [removeDashes_map_foldHexCase, List.length_map,
    DecodeString_map_foldHexCase _ _ (Nat.le_refl _)]

/-- C18: two xvals that differ only in the case of their hexadecimal letters (they agree
once the letters `A` to `F` are put in lower case) give the same outcome of `Decrypt` for
every serial: the same key and plaintext, the same error, or a panic alike. -/
theorem Decrypt_hex_case (serial xval xval2 : List Byte)
    (h : xval.map foldHexCase = xval2.map foldHexCase) :
    Decrypt serial xval = Decrypt serial xval2 := by
  rw [← Decrypt_map_foldHexCase serial xval, h, Decrypt_map_foldHexCase]

theorem Decrypt_hex_case_witness :
    Decrypt (bytesOf "031897772807") (bytesOf "da9c-dC84-43a9-Bb4c")
      = Decrypt (bytesOf "031897772807") (bytesOf "DA9C-DC84-43A9-BB4C") :=
  Decrypt_hex_case (bytesOf "031897772807") (bytesOf "da9c-dC84-43a9-Bb4c")
    (bytesOf "DA9C-DC84-43A9-BB4C") (by decide!)

/-! ## The list of the flags that are set -/

/-- No description of the table is "Unknown violation(s)". -/
theorem description_ne_unknown :
    ∀ p ∈ getFlagDescriptions, p.2 ≠ "Unknown violation(s)" := by
  decide

/-- The two entries of the table with the text "CRL certificate revoked" are counted among
the selected entries when their flags are selected. -/
theorem count_crl (q : Int → Bool) (h1 : q FlagCRLDataInvalid = true)
    (h2 : q FlagCRLCertificateRevoked = true) :
    ((getFlagDescriptions.filter (fun p => q p.1)).map Prod.snd).count
      "CRL certificate revoked" = 2 := by
  rw [List.count, List.countP_map, List.countP_filter]
  simp [getFlagDescriptions, List.countP_cons, h1, h2]

/-- C19: for every 8-byte plaintext in which exactly one of `highBits` and `lowBits` is
non-zero and every order of iteration, the list that `TextResult` returns, without its
entries "Unknown violation(s)", is a permutation of the descriptions of the flags of the
table that are set in `lowBits`, one entry for each (so it has as many entries as flags are
set, and "CRL certificate revoked" twice when both flags with that text are set);
"Unknown violation(s)", when present, is the last entry; and the result is, up to a
permutation, the same for every order of iteration and every such plaintext with the same
`lowBits`. -/
theorem TextResult_flag_list (iter : List (Int × String))
    (hperm : iter.Perm getFlagDescriptions) (dec : List Byte) (hlen : dec.length = 8)
    (hone : lowBits dec ≠ 0 ∧ highBits dec = 0 ∨ lowBits dec = 0 ∧ highBits dec ≠ 0) :
    ∃ result, TextResult iter dec = some result ∧
      (result.filter (fun m => m ≠ "Unknown violation(s)")).Perm
        ((getFlagDescriptions.filter (fun p => and32 (lowBits dec) p.1 ≠ 0)).map Prod.snd) ∧
      (result.filter (fun m => m ≠ "Unknown violation(s)")).length
        = (getFlagDescriptions.filter (fun p => and32 (lowBits dec) p.1 ≠ 0)).length ∧
      (and32 (lowBits dec) FlagCRLDataInvalid ≠ 0 →
        and32 (lowBits dec) FlagCRLCertificateRevoked ≠ 0 →
        result.count "CRL certificate revoked" = 2) ∧
      ("Unknown violation(s)" ∈ result → result.getLast? = some "Unknown violation(s)") ∧
      ∀ (iter2 : List (Int × String)) (dec2 : List Byte), iter2.Perm getFlagDescriptions →
        dec2.length = 8 →
        (lowBits dec2 ≠ 0 ∧ highBits dec2 = 0 ∨ lowBits dec2 = 0 ∧ highBits dec2 ≠ 0) →
        lowBits dec2 = lowBits dec →
        ∃ result2, TextResult iter2 dec2 = some result2 ∧ result2.Perm result := by
  have branch : ∀ d : List Byte,
      (lowBits d ≠ 0 ∧ highBits d = 0 ∨ lowBits d = 0 ∧ highBits d ≠ 0) →
      ¬ (lowBits d = 0 ∧ highBits d = 0) ∧ ¬ (lowBits d ≠ 0 ∧ highBits d ≠ 0) := by
    intro d hd
    rcases hd with ⟨ha, hb⟩ | ⟨ha, hb⟩
    · exact ⟨fun h => ha h.1, fun h => h.2 hb⟩
    · exact ⟨fun h => hb h.2, fun h => h.1 ha⟩
  have hsel : ∀ it : List (Int × String), it.Perm getFlagDescriptions →
      ((it.filter (fun p => decide (and32 (lowBits dec) p.1 ≠ 0))).map Prod.snd).Perm
        ((getFlagDescriptions.filter
          (fun p => decide (and32 (lowBits dec) p.1 ≠ 0))).map Prod.snd) :=
    fun it hit => (hit.filter _).map _
  have hne : ∀ m ∈ (iter.filter (fun p => decide (and32 (lowBits dec) p.1 ≠ 0))).map Prod.snd,
      m ≠ "Unknown violation(s)" := by
    intro m hm
    obtain ⟨p, hp, rfl⟩ := List.mem_map.mp hm
    exact description_ne_unknown p (hperm.mem_iff.mp (List.mem_filter.mp hp).1)
  have hkeep : ((iter.filter (fun p => decide (and32 (lowBits dec) p.1 ≠ 0))).map Prod.snd
        ++ if and32 (lowBits dec) (-0x7FFF) ≠ 0 then ["Unknown violation(s)"] else []).filter
        (fun m => decide (m ≠ "Unknown violation(s)"))
      = (iter.filter (fun p => decide (and32 (lowBits dec) p.1 ≠ 0))).map Prod.snd := by
    rw [List.filter_append, List.filter_eq_self.mpr (fun m hm => by simpa using hne m hm)]
    split_ifs <;> simp
  refine ⟨_, TextResult_flags iter dec (by omega) (branch dec hone).1 (branch dec hone).2,
    ?_, ?_, ?_, ?_, ?_⟩
  · rw [hkeep]
    exact hsel iter hperm
  · rw [hkeep, (hsel iter hperm).length_eq, List.length_map]
  · intro h1 h2
    rw [List.count_append, (hsel iter hperm).count_eq,
      count_crl (fun x => decide (and32 (lowBits dec) x ≠ 0)) (by simpa using h1)
        (by simpa using h2)]
    split_ifs <;> simp
  · intro hmem
    rcases List.mem_append.mp hmem with hm | hm
    · exact absurd rfl (hne _ hm)
    · split_ifs at hm with hu
      · rw [if_pos hu, List.getLast?_append]
        rfl
      · simp at hm
  · intro iter2 dec2 hperm2 hlen2 hone2 hlow
    refine ⟨_, TextResult_flags iter2 dec2 (by omega) (branch dec2 hone2).1
      (branch dec2 hone2).2, ?_⟩
    rw [hlow]
    exact List.Perm.append_right _ ((hsel iter2 hperm2).trans (hsel iter hperm).symm)

theorem TextResult_flag_list_witness :
    ∃ result, TextResult getFlagDescriptions [0, 0, 0, 0, 0x80, 0, 0, 0xC0] = some result ∧
      (result.filter (fun m => m ≠ "Unknown violation(s)")).Perm
        ((getFlagDescriptions.filter
          (fun p => and32 (lowBits [0, 0, 0, 0, 0x80, 0, 0, 0xC0]) p.1 ≠ 0)).map Prod.snd) ∧
      (result.filter (fun m => m ≠ "Unknown violation(s)")).length
        = (getFlagDescriptions.filter
          (fun p => and32 (lowBits [0, 0, 0, 0, 0x80, 0, 0, 0xC0]) p.1 ≠ 0)).length ∧
      (and32 (lowBits [0, 0, 0, 0, 0x80, 0, 0, 0xC0]) FlagCRLDataInvalid ≠ 0 →
        and32 (lowBits [0, 0, 0, 0, 0x80, 0, 0, 0xC0]) FlagCRLCertificateRevoked ≠ 0 →
        result.count "CRL certificate revoked" = 2) ∧
      ("Unknown violation(s)" ∈ result → result.getLast? = some "Unknown violation(s)") ∧
      ∀ (iter2 : List (Int × String)) (dec2 : List Byte), iter2.Perm getFlagDescriptions →
        dec2.length = 8 →
        (lowBits dec2 ≠ 0 ∧ highBits dec2 = 0 ∨ lowBits dec2 = 0 ∧ highBits dec2 ≠ 0) →
        lowBits dec2 = lowBits [0, 0, 0, 0, 0x80, 0, 0, 0xC0] →
        ∃ result2, TextResult iter2 dec2 = some result2 ∧ result2.Perm result :=
  TextResult_flag_list getFlagDescriptions (List.Perm.refl _) [0, 0, 0, 0, 0x80, 0, 0, 0xC0]
    (by decide) (by decide)

end Xval
